/-
  Verification of the arxiveroo preprint-aggregation pipeline.

  Shallow embedding of the query/aggregation core:
    arxiveroo/tools/query/arxiv.py      (feed-based arXiv adapter)
    arxiveroo/tools/query/bioarxiv.py   (range-query bioRxiv adapter)
    arxiveroo/tools/query/medrxiv.py    (range-query medRxiv adapter; file absent
                                         from the tree, modelled from the spec)
    arxiveroo/tools/query/formatters.py (format_entries)
    arxiveroo/tools/query/all_resources.py (orchestrator fetch_all_papers)

  External effects (HTTP responses, the parsed Atom feed, the taxonomy CSV, the
  per-entry LLM judgment) are inputs of the embedded functions.  Fallible Python
  code (exceptions) is embedded with Except.
-/
import Mathlib

namespace Arxiveroo

/-- Python exceptions that the embedded code can raise.  Messages are kept
short and stable; they stand for the CPython messages, which the settled
claims never depend on beyond the exception class. -/
inductive PyErr where
  | valueError (msg : String)
  | indexError (msg : String)
  | keyError (key : String)
  deriving DecidableEq, Repr

/-- A calendar date, the result of Python datetime.date (year, month, day). -/
structure Date where
  year : Nat
  month : Nat
  day : Nat
  deriving DecidableEq, Repr

/-- Comparison of datetime.date values: lexicographic on (year, month, day). -/
def dateLe (a b : Date) : Bool :=
  Nat.blt a.year b.year ||
    (Nat.beq a.year b.year &&
      (Nat.blt a.month b.month ||
        (Nat.beq a.month b.month && Nat.ble a.day b.day)))

/-- Gregorian leap-year rule, as used by datetime for day-of-month validation. -/
def isLeapYear (y : Nat) : Bool :=
  (Nat.beq (y % 4) 0 && !Nat.beq (y % 100) 0) || Nat.beq (y % 400) 0

/-- Number of days in a month, as validated by the datetime constructor. -/
def daysInMonth (y m : Nat) : Nat :=
  if m = 2 then (if isLeapYear y then 29 else 28)
  else if m = 4 || m = 6 || m = 9 || m = 11 then 30
  else 31

/-- Value of an ASCII digit character, none for non-digits. -/
def digitVal (c : Char) : Option Nat :=
  if c.isDigit then some (c.toNat - 48) else none

/-- strptime directive Y: exactly four digits (CPython regex for the
four-digit year), returning the year and the remaining characters. -/
def parse4Y : List Char → Option (Nat × List Char)
  | c1 :: c2 :: c3 :: c4 :: rest =>
    match digitVal c1, digitVal c2, digitVal c3, digitVal c4 with
    | some a, some b, some c, some d => some ((((a * 10 + b) * 10 + c) * 10 + d), rest)
    | _, _, _, _ => none
  | _ => none

/-- strptime directive m: one or two digits with value 1..12.  A two-digit
run with value outside 1..12 fails the whole match, because the single-digit
alternative leaves a digit where the following literal separator is expected. -/
def parseMonthPart : List Char → Option (Nat × List Char)
  | a :: b :: rest =>
    match digitVal a, digitVal b with
    | some x, some y =>
      let v := x * 10 + y
      if 1 ≤ v ∧ v ≤ 12 then some (v, rest) else none
    | some x, none => if 1 ≤ x then some (x, b :: rest) else none
    | none, _ => none
  | [a] =>
    match digitVal a with
    | some x => if 1 ≤ x then some (x, []) else none
    | none => none
  | [] => none

/-- strptime directive d: one or two digits with value 1..31, by the same
greedy-with-dead-fallback reasoning as the month directive. -/
def parseDayPart : List Char → Option (Nat × List Char)
  | a :: b :: rest =>
    match digitVal a, digitVal b with
    | some x, some y =>
      let v := x * 10 + y
      if 1 ≤ v ∧ v ≤ 31 then some (v, rest) else none
    | some x, none => if 1 ≤ x then some (x, b :: rest) else none
    | none, _ => none
  | [a] =>
    match digitVal a with
    | some x => if 1 ≤ x then some (x, []) else none
    | none => none
  | [] => none

/-- Matching one literal character of the strptime format string. -/
def expectChar (c : Char) : List Char → Option (List Char)
  | x :: rest => if x = c then some rest else none
  | [] => none

/-- The date part of strptime with format Y-m-d: year, dash, month, dash,
day, then the full validation the datetime constructor performs (year in
1..9999, month in 1..12, day in 1..days of that month).  Returns the date
and the unconsumed characters. -/
def parseDatePart (cs : List Char) : Option (Date × List Char) := do
  let (y, rest1) ← parse4Y cs
  let rest2 ← expectChar '-' rest1
  let (m, rest3) ← parseMonthPart rest2
  let rest4 ← expectChar '-' rest3
  let (d, rest5) ← parseDayPart rest4
  if 1 ≤ y ∧ y ≤ 9999 ∧ 1 ≤ m ∧ m ≤ 12 ∧ 1 ≤ d ∧ d ≤ daysInMonth y m then
    some (⟨y, m, d⟩, rest5)
  else none

/-- datetime.strptime with format Y-m-d, as used by the bioRxiv adapter on
the record date field; the whole string must be consumed. -/
def parseYMD (s : String) : Option Date :=
  match parseDatePart s.data with
  | some (d, []) => some d
  | _ => none

/-- strptime directive H: one or two digits with value 0..23. -/
def parseHourPart : List Char → Option (Nat × List Char)
  | a :: b :: rest =>
    match digitVal a, digitVal b with
    | some x, some y =>
      let v := x * 10 + y
      if v ≤ 23 then some (v, rest) else none
    | some x, none => some (x, b :: rest)
    | none, _ => none
  | [a] =>
    match digitVal a with
    | some x => some (x, [])
    | none => none
  | [] => none

/-- strptime directives M and S: one or two digits; two-digit runs allow
00..59 for minutes and 00..61 for seconds (leap seconds in the regex). -/
def parseMinSecPart (maxTens : Nat) : List Char → Option (Nat × List Char)
  | a :: b :: rest =>
    match digitVal a, digitVal b with
    | some x, some y =>
      if x ≤ maxTens then some (x * 10 + y, rest) else none
    | some x, none => some (x, b :: rest)
    | none, _ => none
  | [a] =>
    match digitVal a with
    | some x => some (x, [])
    | none => none
  | [] => none

/-- datetime.strptime with format Y-m-dTH:M:SZ followed by .date(), as used
by the arXiv adapter on the feed published field: the time-of-day is parsed
and validated (seconds above 59 fail the datetime constructor) and then
discarded; the whole string must be consumed. -/
def parseArxivTS (s : String) : Option Date := do
  let (d, rest1) ← parseDatePart s.data
  let rest2 ← expectChar 'T' rest1
  let (_, rest3) ← parseHourPart rest2
  let rest4 ← expectChar ':' rest3
  let (_, rest5) ← parseMinSecPart 5 rest4
  let rest6 ← expectChar ':' rest5
  let (sec, rest7) ← parseMinSecPart 6 rest6
  let rest8 ← expectChar 'Z' rest7
  if rest8 = [] ∧ sec ≤ 59 then some d else none

/-- The ASCII character of a decimal digit. -/
def digitChar (n : Nat) : Char := Char.ofNat (48 + n)

/-- Two-digit zero-padded decimal rendering, as strftime directives d and m
produce for day and month values (always below 100). -/
def pad2str (n : Nat) : String := String.mk [digitChar (n / 10), digitChar (n % 10)]

/-- Four-digit zero-padded decimal rendering for the year (parsed years are
always four digits, so below 10000). -/
def pad4str (n : Nat) : String :=
  String.mk [digitChar (n / 1000), digitChar (n / 100 % 10), digitChar (n / 10 % 10),
    digitChar (n % 10)]

/-- strftime with format d/m/Y, the rendering both adapters store in the
published field of an Entry. -/
def fmtDMY (d : Date) : String := pad2str d.day ++ "/" ++ pad2str d.month ++ "/" ++ pad4str d.year

/-- str() of a datetime.date: ISO Y-m-d, used by format_entries headers. -/
def dateISO (d : Date) : String :=
  pad4str d.year ++ "-" ++ pad2str d.month ++ "-" ++ pad2str d.day

/-- Reads a d/m/Y string back into a date: the left inverse of fmtDMY used
to state window claims about the formatted published field. -/
def parseDMYAux : List Char → Option Date
  | [d1, d2, '/', m1, m2, '/', y1, y2, y3, y4] =>
    match digitVal d1, digitVal d2, digitVal m1, digitVal m2,
        digitVal y1, digitVal y2, digitVal y3, digitVal y4 with
    | some a, some b, some c, some d, some e, some f, some g, some h =>
      some ⟨((e * 10 + f) * 10 + g) * 10 + h, c * 10 + d, a * 10 + b⟩
    | _, _, _, _, _, _, _, _ => none
  | _ => none

/-- See parseDMYAux. -/
def parseDMY (s : String) : Option Date := parseDMYAux s.data

/-- The whitespace characters Python str.strip removes (the ASCII ones; the
strings this pipeline handles are ASCII). -/
def isPySpace (c : Char) : Bool :=
  c = ' ' || c = '\t' || c = '\n' || c = '\r' || c = '\x0b' || c = '\x0c'

/-- Python str.strip with no arguments: drop leading and trailing
whitespace. -/
def pyStrip (s : String) : String :=
  String.mk (((s.data.dropWhile isPySpace).reverse.dropWhile isPySpace).reverse)

/-- The character-list worker of Python str.replace: substitute every
non-overlapping occurrence of old, scanning left to right.  The fuel starts
at the list length and each step consumes at least one character. -/
def replaceFuel (old new : List Char) : Nat → List Char → List Char
  | 0, cs => cs
  | f + 1, cs =>
    match cs with
    | [] => []
    | c :: rest =>
      if cs.take old.length = old ∧ old ≠ [] then
        new ++ replaceFuel old new f (cs.drop old.length)
      else c :: replaceFuel old new f rest

/-- Python str.replace on strings. -/
def pyReplace (s old new : String) : String :=
  String.mk (replaceFuel old.data new.data s.data.length s.data)

/-- Python str.lower on the ASCII strings this pipeline handles. -/
def pyLower (s : String) : String := String.mk (s.data.map Char.toLower)

/-- Modelled from the spec: the class Entry is imported by every adapter from
arxiveroo.tools.query.models, but the models file in the tree only holds the
legacy per-source dataclasses, not Entry.  Its fields follow spec section 3
and the keyword arguments of every Entry construction in the adapters:
title, authors, published, link, summary, category, database, all strings. -/
structure Entry where
  title : String
  authors : String
  published : String
  link : String
  summary : String
  category : String
  database : String
  deriving DecidableEq, Repr

/-- The six lines that format_entries appends for one entry. -/
def entryLines (e : Entry) : List String :=
  ["## " ++ pyStrip e.title,
   "**Authors:** " ++ e.authors,
   "**Published:** " ++ e.published,
   "**Link:** " ++ e.link,
   "**Category:** " ++ e.category,
   "**Summary:** " ++ e.summary]

/-- format_entries from arxiveroo/tools/query/formatters.py: a header line
with the window and the count, six lines per entry, joined with newlines. -/
def format_entries (entries : List Entry) (start_date end_date : Date) : String :=
  String.intercalate "\n"
    (("Papers from " ++ dateISO start_date ++ " to " ++ dateISO end_date ++ ": "
        ++ toString entries.length)
      :: (entries.map entryLines).flatten)

/-- One record of the parsed arXiv Atom feed (feedparser output), with the
fields the adapter reads: title, published timestamp, abstract-page link,
summary, author names, and the optional primary category term. -/
structure FeedEntry where
  title : String
  published : String
  link : String
  summary : String
  authors : List String
  primary_category : Option String
  deriving DecidableEq, Repr

/-- The parsed feed: feedparser.parse never raises, a failed request just
yields a feed without entries. -/
structure Feed where
  entries : List FeedEntry
  deriving DecidableEq, Repr

/-- get_pdf_link from arxiv.py: empty page URL gives an empty link, otherwise
the abs path segment is rewritten to pdf and the pdf extension is appended. -/
def arxivPdfLink (page_url : String) : String :=
  if page_url = "" then "" else (pyReplace page_url "/abs/" "/pdf/") ++ ".pdf"

/-- The category stored in an arXiv Entry: the primary category term of the
record when the record has one, otherwise the head of the requested
categories list, which raises IndexError when that list is empty. -/
def arxivCategoryOf (categories : List String) (r : FeedEntry) : Except PyErr String :=
  match r.primary_category with
  | some t => .ok t
  | none =>
    match categories with
    | c :: _ => .ok c
    | [] => .error (.indexError "list index out of range")

/-- The Entry built for one in-window arXiv feed record with resolved
category cat and parsed published date d. -/
def mkArxivEntry (r : FeedEntry) (d : Date) (cat : String) : Entry :=
  { title := pyReplace (pyStrip r.title) "\n" " "
    authors := String.intercalate ", " r.authors
    published := fmtDMY d
    link := arxivPdfLink r.link
    summary := r.summary
    category := cat
    database := "arxiv" }

/-- The record loop of fetch_arxiv_papers: parse the published timestamp of
every record (a parse failure raises and aborts the loop), keep the records
whose date falls in the closed window, and build their entries in feed
order. -/
def buildArxivEntries (categories : List String) (start_date end_date : Date) :
    List FeedEntry → Except PyErr (List Entry)
  | [] => .ok []
  | r :: rs =>
    match parseArxivTS r.published with
    | none => .error (.valueError "time data does not match format")
    | some d =>
      if dateLe start_date d && dateLe d end_date then
        match arxivCategoryOf categories r with
        | .error er => .error er
        | .ok cat =>
          match buildArxivEntries categories start_date end_date rs with
          | .error er => .error er
          | .ok tail => .ok (mkArxivEntry r d cat :: tail)
      else buildArxivEntries categories start_date end_date rs

/-- fetch_arxiv_papers from arxiv.py over an already-parsed feed.  The
max_results argument only shapes the upstream query URL, so it does not
appear in the local processing; the single-string categories overload is
modelled by the list form the orchestrator always passes.  Returns the
(format_entries text, entries) pair of the source. -/
def fetch_arxiv_papers (categories : List String) (max_results : Nat)
    (start_date end_date : Date) (feed : Feed) : Except PyErr (String × List Entry) :=
  match buildArxivEntries categories start_date end_date feed.entries with
  | .error er => .error er
  | .ok entries => .ok (format_entries entries start_date end_date, entries)

/-- One record of the bioRxiv (or medRxiv) JSON collection.  Every field is
read with dict.get and a default empty string, so absent keys appear here as
empty strings. -/
structure BioRecord where
  title : String
  authors : String
  date : String
  doi : String
  abstract : String
  category : String
  deriving DecidableEq, Repr

/-- The upstream HTTP response of the range-query sources: a status code and
the decoded JSON body, whose collection key may be absent. -/
structure BioResponse where
  status_code : Nat
  collection : Option (List BioRecord)
  deriving DecidableEq, Repr

/-- The value fetch_biorxiv_papers actually returns: the error paths return
a bare empty list literal while the success path returns a (text, entries)
tuple.  Python permits this shape mismatch; the orchestrator then unpacks
the result into two names. -/
inductive BioRet where
  | emptyListVal
  | pairVal (text : String) (entries : List Entry)
  deriving DecidableEq, Repr

/-- get_pdf_link from bioarxiv.py: DOI substituted into the bioRxiv content
URL template, empty DOI gives an empty link. -/
def bioPdfLink (doi : String) : String :=
  if doi = "" then "" else "https://www.biorxiv.org/content/" ++ doi ++ "v1.full.pdf"

/-- The Entry built for one category-matching bioRxiv record with parsed
date d. -/
def mkBioEntry (r : BioRecord) (d : Date) : Entry :=
  { title := pyReplace (pyStrip r.title) "\n" " "
    authors := r.authors
    published := fmtDMY d
    link := bioPdfLink r.doi
    summary := r.abstract
    category := r.category
    database := "biorxiv" }

/-- The record loop of fetch_biorxiv_papers: the lowercased record category
is tested against the lowercased requested list first, and only matching
records have their date parsed (a parse failure raises and aborts the
loop).  No date window test is applied locally. -/
def buildBioEntries (lowCats : List String) : List BioRecord → Except PyErr (List Entry)
  | [] => .ok []
  | r :: rs =>
    if pyLower r.category ∈ lowCats then
      match parseYMD r.date with
      | none => .error (.valueError "time data does not match format")
      | some d =>
        match buildBioEntries lowCats rs with
        | .error er => .error er
        | .ok tail => .ok (mkBioEntry r d :: tail)
    else buildBioEntries lowCats rs

/-- fetch_biorxiv_papers from bioarxiv.py over an already-decoded response:
a non-200 status or a body without the collection key yields the bare empty
list, otherwise the matching records become entries and the (text, entries)
tuple is returned. -/
def fetch_biorxiv_papers (categories : List String) (start_date end_date : Date)
    (resp : BioResponse) : Except PyErr BioRet :=
  let lowCats := categories.map pyLower
  if resp.status_code ≠ 200 then .ok .emptyListVal
  else
    match resp.collection with
    | none => .ok .emptyListVal
    | some records =>
      match buildBioEntries lowCats records with
      | .error er => .error er
      | .ok entries => .ok (.pairVal (format_entries entries start_date end_date) entries)

/-- Modelled from the spec: medRxiv PDF link template.  The file
arxiveroo/tools/query/medrxiv.py is imported by the orchestrator but absent
from the tree; per spec section 4.1 the two range-query variants share one
shape and differ in upstream host and tag, as the legacy standalone medrxiv
script also shows, so the link template substitutes the DOI into the
medRxiv content URL. -/
def medPdfLink (doi : String) : String :=
  if doi = "" then "" else "https://www.medrxiv.org/content/" ++ doi ++ "v1.full.pdf"

/-- Modelled from the spec: the Entry built for one category-matching
medRxiv record, mirroring the bioRxiv sibling with the medRxiv database tag
and link template. -/
def mkMedEntry (r : BioRecord) (d : Date) : Entry :=
  { title := pyReplace (pyStrip r.title) "\n" " "
    authors := r.authors
    published := fmtDMY d
    link := medPdfLink r.doi
    summary := r.abstract
    category := r.category
    database := "medrxiv" }

/-- Modelled from the spec: the medRxiv record loop, same shape as the
bioRxiv one. -/
def buildMedEntries (lowCats : List String) : List BioRecord → Except PyErr (List Entry)
  | [] => .ok []
  | r :: rs =>
    if pyLower r.category ∈ lowCats then
      match parseYMD r.date with
      | none => .error (.valueError "time data does not match format")
      | some d =>
        match buildMedEntries lowCats rs with
        | .error er => .error er
        | .ok tail => .ok (mkMedEntry r d :: tail)
    else buildMedEntries lowCats rs

/-- Modelled from the spec: fetch_medrxiv_papers, absent from the tree, as
the spec describes it: a range-query variant of the same shape as
fetch_biorxiv_papers (non-success or shapeless responses yield an empty
sequence, local filtering is by case-insensitive category membership only). -/
def fetch_medrxiv_papers (categories : List String) (start_date end_date : Date)
    (resp : BioResponse) : Except PyErr BioRet :=
  let lowCats := categories.map pyLower
  if resp.status_code ≠ 200 then .ok .emptyListVal
  else
    match resp.collection with
    | none => .ok .emptyListVal
    | some records =>
      match buildMedEntries lowCats records with
      | .error er => .error er
      | .ok entries => .ok (.pairVal (format_entries entries start_date end_date) entries)

/-- One row of the categories_index.csv taxonomy the orchestrator loads: a
category code and the database it belongs to (the description column is
never read). -/
structure TaxRow where
  category_code : String
  database : String
  deriving DecidableEq, Repr

/-- The per-source resolved category list of fetch_all_papers: the codes of
the source in the taxonomy, as a set, intersected with the selected
categories, as a list.  Python materializes both sides as sets whose
iteration order is unspecified; this model fixes first-appearance taxonomy
order, and no settled claim depends on that order. -/
def resolvedFor (resources : List TaxRow) (categories : List String) (db : String) :
    List String :=
  (((resources.filter (fun r => r.database = db)).map (fun r => r.category_code)).dedup).filter
    (fun c => c ∈ categories)

/-- Indexing the categories_by_source dict: a KeyError when the taxonomy has
no row for the database. -/
def keyCheck (resources : List TaxRow) (db : String) : Except PyErr Unit :=
  if db ∈ resources.map (fun r => r.database) then .ok () else .error (.keyError db)

/-- Tuple-unpacking a range-query adapter result into two names: the success
tuple unpacks, while the bare empty list of the error paths raises
ValueError because it has zero elements, not two. -/
def unpackPair : BioRet → Except PyErr (String × List Entry)
  | .pairVal text entries => .ok (text, entries)
  | .emptyListVal => .error (.valueError "not enough values to unpack (expected 2, got 0)")

/-- The structured output the judgment model must return for one entry:
a reason, a relevance flag and an integer score (pydantic constrains the
score to 1..10 by rejecting other outputs, so the judge abstraction only
produces values of this shape). -/
structure EntryAnnotation where
  reason : String
  is_relevant : Bool
  relevance_score : Nat
  deriving DecidableEq, Repr

/-- The annotation loop of fetch_all_papers: exactly the first twenty
concatenated entries are sent, one by one in order, to the external judge
(abstracted as a function, with the user preference text folded into it);
the pacing sleep and the UI step updates carry no data. -/
def annotate_entries (judge : Entry → EntryAnnotation) (all_entries : List Entry) :
    List (Entry × EntryAnnotation) :=
  (all_entries.take 20).map (fun e => (e, judge e))

/-- One row of the relevant_entries DataFrame: title, reason and score of a
judged-relevant entry. -/
structure RankedRow where
  title : String
  reason : String
  relevance_score : Nat
  deriving DecidableEq, Repr

/-- The rows appended by the annotation loop: one per annotation whose
relevance flag is set, in loop order. -/
def relevantRowsOf (annotated : List (Entry × EntryAnnotation)) : List RankedRow :=
  (annotated.filter (fun pa => pa.2.is_relevant)).map
    (fun pa => { title := pa.1.title, reason := pa.2.reason,
                 relevance_score := pa.2.relevance_score })

/-- Ascending comparison on the score column. -/
def scoreLE (a b : RankedRow) : Prop := a.relevance_score ≤ b.relevance_score

instance : DecidableRel scoreLE := fun a b => Nat.decLe a.relevance_score b.relevance_score

instance : IsTotal RankedRow scoreLE := ⟨fun a b => Nat.le_total a.relevance_score b.relevance_score⟩

instance : IsTrans RankedRow scoreLE := ⟨fun _ _ _ => Nat.le_trans⟩

/-- Descending comparison on the score column, the order of the sorted
DataFrame. -/
def scoreGE (a b : RankedRow) : Prop := b.relevance_score ≤ a.relevance_score

/-- DataFrame.sort_values on the score column with ascending False: pandas
nargsort reverses the rows, argsorts them ascending, and reverses the
resulting indexer.  The ascending argsort is numpy sort kind quicksort,
which runs plain stable insertion sort on the at most twenty rows this
pipeline produces below the introsort partition threshold of seventeen;
Mathlib insertionSort is that stable insertion sort. -/
def sort_values_desc (rows : List RankedRow) : List RankedRow :=
  (List.insertionSort scoreLE rows.reverse).reverse

/-- DataFrame.drop_duplicates on the title column with the default keep
first: walks the rows in order and keeps each row whose title has not been
seen yet. -/
def dropDupGo (seen : List String) : List RankedRow → List RankedRow
  | [] => []
  | r :: rs =>
    if r.title ∈ seen then dropDupGo seen rs
    else r :: dropDupGo (r.title :: seen) rs

/-- See dropDupGo. -/
def dropDupTitle (rows : List RankedRow) : List RankedRow := dropDupGo [] rows

/-- The dedup and rank stage of fetch_all_papers: the relevant rows are
concatenated into one DataFrame (pd.concat raises ValueError when no rows
are relevant), sorted by score descending, and deduplicated by title
keeping the first row of each title. -/
def rank (annotated : List (Entry × EntryAnnotation)) : Except PyErr (List RankedRow) :=
  let relevant := relevantRowsOf annotated
  if relevant.isEmpty then .error (.valueError "No objects to concatenate")
  else .ok (dropDupTitle (sort_values_desc relevant))

/-- The block the report loop appends for one row, with its one-based
sequence number. -/
def paperBlock (idx : Nat) (r : RankedRow) : String :=
  "## Paper " ++ toString idx ++ "\n"
    ++ "**Title:** " ++ r.title ++ "\n"
    ++ "**Score:** " ++ toString r.relevance_score ++ "\n"
    ++ "**Reason:** " ++ r.reason ++ "\n"
    ++ "\n\n"

/-- The report loop of fetch_all_papers: an accumulator string and a counter
starting at one. -/
def renderGo (acc : String) (idx : Nat) : List RankedRow → String
  | [] => acc
  | r :: rs => renderGo (acc ++ paperBlock idx r) (idx + 1) rs

/-- See renderGo. -/
def renderReport (rows : List RankedRow) : String := renderGo "" 1 rows

/-- The greatest score among the rows of rs bearing title t, zero when none
does: the value the dedup claim compares the surviving row against. -/
def maxScoreOf (rs : List RankedRow) (t : String) : Nat :=
  ((rs.filter (fun r => r.title = t)).map (fun r => r.relevance_score)).foldr Nat.max 0

/-- The window invariant on the formatted published field of an Entry: it
reads back as a date inside the closed window. -/
def publishedInWindow (start_date end_date : Date) (e : Entry) : Bool :=
  match parseDMY e.published with
  | some d => dateLe start_date d && dateLe d end_date
  | none => false

/-- The entries carried by an adapter result, empty for the error paths and
for a raised exception: a projection used to state claims about range-query
outputs. -/
def entriesOfRet : Except PyErr BioRet → List Entry
  | .ok (.pairVal _ entries) => entries
  | _ => []

/-- The fetch half of fetch_all_papers: resolve each source through the
categories_by_source dict (KeyError when the taxonomy lacks the source),
invoke the three adapters in source order with the shared window, unpack
each result, and concatenate the entry lists. -/
def allEntriesOf (resources : List TaxRow) (categories : List String) (max_results : Nat)
    (start_date end_date : Date) (feedA : Feed) (respB respM : BioResponse) :
    Except PyErr (List Entry) :=
  match keyCheck resources "arxiv" with
  | .error er => .error er
  | .ok _ =>
    match fetch_arxiv_papers (resolvedFor resources categories "arxiv") max_results
        start_date end_date feedA with
    | .error er => .error er
    | .ok (_, arxivEs) =>
      match keyCheck resources "biorxiv" with
      | .error er => .error er
      | .ok _ =>
        match fetch_biorxiv_papers (resolvedFor resources categories "biorxiv")
            start_date end_date respB with
        | .error er => .error er
        | .ok bioRet =>
          match unpackPair bioRet with
          | .error er => .error er
          | .ok (_, bioEs) =>
            match keyCheck resources "medrxiv" with
            | .error er => .error er
            | .ok _ =>
              match fetch_medrxiv_papers (resolvedFor resources categories "medrxiv")
                  start_date end_date respM with
              | .error er => .error er
              | .ok medRet =>
                match unpackPair medRet with
                | .error er => .error er
                | .ok (_, medEs) => .ok (arxivEs ++ bioEs ++ medEs)

/-- fetch_all_papers from all_resources.py over already-decoded upstream
responses: fetch and concatenate, annotate the first twenty entries through
the judge, filter to relevant rows, concatenate, sort, deduplicate, and
render the report; returns the (report, rows) pair of the source.  The
preference text and taxonomy rows are read from process-external stores and
enter here as arguments; the judge abstraction closes over the preference
text. -/
def fetch_all_papers (resources : List TaxRow) (categories : List String)
    (max_results : Nat) (start_date end_date : Date) (feedA : Feed)
    (respB respM : BioResponse) (judge : Entry → EntryAnnotation) :
    Except PyErr (String × List RankedRow) :=
  match allEntriesOf resources categories max_results start_date end_date
      feedA respB respM with
  | .error er => .error er
  | .ok all_entries =>
    match rank (annotate_entries judge all_entries) with
    | .error er => .error er
    | .ok rows => .ok (renderReport rows, rows)

/-- True exactly when the embedded Python call raises. -/
def exceptIsError {α : Type} : Except PyErr α → Bool
  | .error _ => true
  | .ok _ => false


theorem daysInMonth_le (y m : Nat) : daysInMonth y m ≤ 31 := by
  unfold daysInMonth
  split
  · split <;> omega
  · split <;> omega

theorem parseDatePart_bounds {cs rest : List Char} {dt : Date}
    (h : parseDatePart cs = some (dt, rest)) :
    1 ≤ dt.year ∧ dt.year ≤ 9999 ∧ 1 ≤ dt.month ∧ dt.month ≤ 12 ∧ 1 ≤ dt.day ∧ dt.day ≤ 31 := by
  simp only [parseDatePart, bind, Option.bind_eq_some] at h
  obtain ⟨⟨y, rest1⟩, hy, ⟨r2, hr2, ⟨⟨m, rest3⟩, hm, ⟨r4, hr4, ⟨⟨d, rest5⟩, hd, hfin⟩⟩⟩⟩⟩ := h
  split at hfin
  · rename_i hcond
    cases hfin
    obtain ⟨h1, h2, h3, h4, h5, h6⟩ := hcond
    exact ⟨h1, h2, h3, h4, h5, le_trans h6 (daysInMonth_le _ _)⟩
  · cases hfin

theorem parseYMD_bounds {s : String} {dt : Date} (h : parseYMD s = some dt) :
    1 ≤ dt.year ∧ dt.year ≤ 9999 ∧ 1 ≤ dt.month ∧ dt.month ≤ 12 ∧ 1 ≤ dt.day ∧ dt.day ≤ 31 := by
  unfold parseYMD at h
  split at h
  · cases h; exact parseDatePart_bounds (by assumption)
  · cases h

theorem parseArxivTS_bounds {s : String} {dt : Date} (h : parseArxivTS s = some dt) :
    1 ≤ dt.year ∧ dt.year ≤ 9999 ∧ 1 ≤ dt.month ∧ dt.month ≤ 12 ∧ 1 ≤ dt.day ∧ dt.day ≤ 31 := by
  simp only [parseArxivTS, bind, Option.bind_eq_some] at h
  obtain ⟨⟨dt0, rest1⟩, hp, ⟨r2, hr2, ⟨⟨x3, rest3⟩, h3, ⟨r4, hr4, ⟨⟨x5, rest5⟩, h5,
    ⟨r6, hr6, ⟨⟨sec, rest7⟩, h7, ⟨r8, hr8, hfin⟩⟩⟩⟩⟩⟩⟩⟩ := h
  split at hfin
  · cases hfin
    exact parseDatePart_bounds hp
  · cases hfin

theorem digitVal_digitChar {n : Nat} (h : n ≤ 9) : digitVal (digitChar n) = some n := by
  interval_cases n <;> decide

theorem parseDMY_fmtDMY {dt : Date} (hy1 : 1 ≤ dt.year) (hy : dt.year ≤ 9999)
    (hm : dt.month ≤ 12) (hd : dt.day ≤ 31) : parseDMY (fmtDMY dt) = some dt := by
  obtain ⟨y, m, d⟩ := dt
  simp only at hy hm hd
  have hdata : (fmtDMY ⟨y, m, d⟩).data =
      [digitChar (d / 10), digitChar (d % 10), '/', digitChar (m / 10), digitChar (m % 10),
       '/', digitChar (y / 1000), digitChar (y / 100 % 10), digitChar (y / 10 % 10),
       digitChar (y % 10)] := by
    simp [fmtDMY, pad2str, pad4str, String.data_append]
  unfold parseDMY
  rw [hdata]
  simp only [parseDMYAux]
  rw [digitVal_digitChar (by omega), digitVal_digitChar (by omega),
    digitVal_digitChar (by omega), digitVal_digitChar (by omega),
    digitVal_digitChar (by omega), digitVal_digitChar (by omega),
    digitVal_digitChar (by omega), digitVal_digitChar (by omega)]
  simp only [Option.some.injEq, Date.mk.injEq]
  refine ⟨by omega, by omega, by omega⟩


theorem buildArxivEntries_mem {cats : List String} {s e : Date} {rs : List FeedEntry}
    {entries : List Entry} (h : buildArxivEntries cats s e rs = .ok entries) :
    ∀ en ∈ entries, ∃ r, r ∈ rs ∧ ∃ d cat, parseArxivTS r.published = some d ∧
      (dateLe s d && dateLe d e) = true ∧ arxivCategoryOf cats r = .ok cat ∧
      en = mkArxivEntry r d cat := by
  induction rs generalizing entries with
  | nil =>
    unfold buildArxivEntries at h
    cases h
    intro en hen
    cases hen
  | cons r rs ih =>
    unfold buildArxivEntries at h
    split at h
    · cases h
    · rename_i d hp
      split at h
      · rename_i hwin
        split at h
        · cases h
        · rename_i cat hc
          split at h
          · cases h
          · rename_i tail hrec
            cases h
            intro en hen
            rcases List.mem_cons.mp hen with he | he
            · exact ⟨r, List.mem_cons_self r rs, d, cat, hp, hwin, hc, he⟩
            · rcases ih hrec en he with ⟨r0, hr0, rest⟩
              exact ⟨r0, List.mem_cons_of_mem r hr0, rest⟩
      · intro en hen
        rcases ih h en hen with ⟨r0, hr0, rest⟩
        exact ⟨r0, List.mem_cons_of_mem r hr0, rest⟩


theorem buildBioEntries_mem {lowCats : List String} {records : List BioRecord}
    {entries : List Entry} (h : buildBioEntries lowCats records = .ok entries) :
    ∀ en ∈ entries, ∃ r, r ∈ records ∧ pyLower r.category ∈ lowCats ∧
      ∃ d, parseYMD r.date = some d ∧ en = mkBioEntry r d := by
  induction records generalizing entries with
  | nil =>
    unfold buildBioEntries at h
    cases h
    intro en hen
    cases hen
  | cons r rs ih =>
    unfold buildBioEntries at h
    split at h
    · rename_i hcat
      split at h
      · cases h
      · rename_i d hp
        split at h
        · cases h
        · rename_i tail hrec
          cases h
          intro en hen
          rcases List.mem_cons.mp hen with he | he
          · exact ⟨r, List.mem_cons_self r rs, hcat, d, hp, he⟩
          · rcases ih hrec en he with ⟨r0, hr0, rest⟩
            exact ⟨r0, List.mem_cons_of_mem r hr0, rest⟩
    · intro en hen
      rcases ih h en hen with ⟨r0, hr0, rest⟩
      exact ⟨r0, List.mem_cons_of_mem r hr0, rest⟩


theorem buildArxivEntries_ok_parses {cats : List String} {s e : Date} {rs : List FeedEntry}
    {entries : List Entry} (h : buildArxivEntries cats s e rs = .ok entries) :
    ∀ r ∈ rs, parseArxivTS r.published ≠ none := by
  induction rs generalizing entries with
  | nil => intro r hr; cases hr
  | cons r rs ih =>
    unfold buildArxivEntries at h
    split at h
    · cases h
    · rename_i d hp
      split at h
      · split at h
        · cases h
        · rename_i cat hc
          split at h
          · cases h
          · rename_i tail hrec
            intro x hx
            rcases List.mem_cons.mp hx with he | he
            · subst he; simp [hp]
            · exact ih hrec x he
      · intro x hx
        rcases List.mem_cons.mp hx with he | he
        · subst he; simp [hp]
        · exact ih h x he

theorem buildArxivEntries_ok_category {cats : List String} {s e : Date} {rs : List FeedEntry}
    {entries : List Entry} (h : buildArxivEntries cats s e rs = .ok entries) :
    ∀ r ∈ rs, ∀ d, parseArxivTS r.published = some d → (dateLe s d && dateLe d e) = true →
      ∃ cat, arxivCategoryOf cats r = .ok cat := by
  induction rs generalizing entries with
  | nil => intro r hr; cases hr
  | cons r rs ih =>
    unfold buildArxivEntries at h
    split at h
    · cases h
    · rename_i d hp
      split at h
      · rename_i hwin
        split at h
        · cases h
        · rename_i cat hc
          split at h
          · cases h
          · rename_i tail hrec
            intro x hx
            rcases List.mem_cons.mp hx with he | he
            · subst he; intro d0 hd0 _; exact ⟨cat, hc⟩
            · exact ih hrec x he
      · rename_i hwin
        intro x hx
        rcases List.mem_cons.mp hx with he | he
        · subst he
          intro d0 hd0 hw0
          rw [hp] at hd0
          cases hd0
          exact absurd hw0 hwin
        · exact ih h x he

theorem buildArxivEntries_error_shape {cats : List String} {s e : Date} {rs : List FeedEntry}
    {er : PyErr} (hall : ∀ r ∈ rs, parseArxivTS r.published ≠ none)
    (h : buildArxivEntries cats s e rs = .error er) :
    er = .indexError "list index out of range" := by
  induction rs with
  | nil => cases h
  | cons r rs ih =>
    unfold buildArxivEntries at h
    split at h
    · rename_i hp
      exact absurd hp (hall r (List.mem_cons_self r rs))
    · rename_i d hp
      split at h
      · split at h
        · rename_i er0 hc
          cases h
          unfold arxivCategoryOf at hc
          split at hc
          · cases hc
          · split at hc
            · cases hc
            · cases hc; rfl
        · split at h
          · rename_i er0 hrec
            cases h
            exact ih (fun x hx => hall x (List.mem_cons_of_mem r hx)) hrec
          · cases h
      · exact ih (fun x hx => hall x (List.mem_cons_of_mem r hx)) h

theorem buildArxivEntries_abort {cats : List String} {s e : Date} {rs : List FeedEntry}
    (h : ∃ r ∈ rs, parseArxivTS r.published = none) :
    ∃ er, buildArxivEntries cats s e rs = .error er := by
  rcases h with ⟨r0, hr0, hnone⟩
  cases hres : buildArxivEntries cats s e rs with
  | ok entries => exact absurd hnone (buildArxivEntries_ok_parses hres r0 hr0)
  | error er => exact ⟨er, rfl⟩

theorem buildBioEntries_ok_parses {lowCats : List String} {records : List BioRecord}
    {entries : List Entry} (h : buildBioEntries lowCats records = .ok entries) :
    ∀ r ∈ records, pyLower r.category ∈ lowCats → parseYMD r.date ≠ none := by
  induction records generalizing entries with
  | nil => intro r hr; cases hr
  | cons r rs ih =>
    unfold buildBioEntries at h
    split at h
    · rename_i hcat
      split at h
      · cases h
      · rename_i d hp
        split at h
        · cases h
        · rename_i tail hrec
          intro x hx
          rcases List.mem_cons.mp hx with he | he
          · subst he; intro _; simp [hp]
          · exact ih hrec x he
    · rename_i hcat
      intro x hx
      rcases List.mem_cons.mp hx with he | he
      · subst he; intro hc; exact absurd hc hcat
      · exact ih h x he

theorem buildBioEntries_error_has {lowCats : List String} {records : List BioRecord}
    {er : PyErr} (h : buildBioEntries lowCats records = .error er) :
    ∃ r ∈ records, pyLower r.category ∈ lowCats ∧ parseYMD r.date = none := by
  induction records with
  | nil => cases h
  | cons r rs ih =>
    unfold buildBioEntries at h
    split at h
    · rename_i hcat
      split at h
      · rename_i hp
        exact ⟨r, List.mem_cons_self r rs, hcat, hp⟩
      · split at h
        · rename_i er0 hrec
          cases h
          rcases ih hrec with ⟨r0, hr0, rest⟩
          exact ⟨r0, List.mem_cons_of_mem r hr0, rest⟩
        · cases h
    · rcases ih h with ⟨r0, hr0, rest⟩
      exact ⟨r0, List.mem_cons_of_mem r hr0, rest⟩

theorem buildBioEntries_abort {lowCats : List String} {records : List BioRecord}
    (h : ∃ r ∈ records, pyLower r.category ∈ lowCats ∧ parseYMD r.date = none) :
    ∃ er, buildBioEntries lowCats records = .error er := by
  rcases h with ⟨r0, hr0, hcat0, hnone⟩
  cases hres : buildBioEntries lowCats records with
  | ok entries => exact absurd hnone (buildBioEntries_ok_parses hres r0 hr0 hcat0)
  | error er => exact ⟨er, rfl⟩

theorem buildBioEntries_ok {lowCats : List String} {records : List BioRecord}
    (h : ∀ r ∈ records, pyLower r.category ∈ lowCats → parseYMD r.date ≠ none) :
    ∃ entries, buildBioEntries lowCats records = .ok entries := by
  cases hres : buildBioEntries lowCats records with
  | ok entries => exact ⟨entries, rfl⟩
  | error er =>
    rcases buildBioEntries_error_has hres with ⟨r0, hr0, hcat0, hnone⟩
    exact absurd hnone (h r0 hr0 hcat0)

theorem buildBioEntries_nilcats (records : List BioRecord) :
    buildBioEntries [] records = .ok [] := by
  induction records with
  | nil => rfl
  | cons r rs ih =>
    unfold buildBioEntries
    rw [if_neg (List.not_mem_nil _)]
    exact ih


theorem buildMedEntries_mem {lowCats : List String} {records : List BioRecord}
    {entries : List Entry} (h : buildMedEntries lowCats records = .ok entries) :
    ∀ en ∈ entries, ∃ r, r ∈ records ∧ pyLower r.category ∈ lowCats ∧
      ∃ d, parseYMD r.date = some d ∧ en = mkMedEntry r d := by
  induction records generalizing entries with
  | nil =>
    unfold buildMedEntries at h
    cases h
    intro en hen
    cases hen
  | cons r rs ih =>
    unfold buildMedEntries at h
    split at h
    · rename_i hcat
      split at h
      · cases h
      · rename_i d hp
        split at h
        · cases h
        · rename_i tail hrec
          cases h
          intro en hen
          rcases List.mem_cons.mp hen with he | he
          · exact ⟨r, List.mem_cons_self r rs, hcat, d, hp, he⟩
          · rcases ih hrec en he with ⟨r0, hr0, rest⟩
            exact ⟨r0, List.mem_cons_of_mem r hr0, rest⟩
    · intro en hen
      rcases ih h en hen with ⟨r0, hr0, rest⟩
      exact ⟨r0, List.mem_cons_of_mem r hr0, rest⟩

theorem buildMedEntries_nilcats (records : List BioRecord) :
    buildMedEntries [] records = .ok [] := by
  induction records with
  | nil => rfl
  | cons r rs ih =>
    unfold buildMedEntries
    rw [if_neg (List.not_mem_nil _)]
    exact ih

theorem sort_values_desc_perm (l : List RankedRow) : (sort_values_desc l).Perm l := by
  unfold sort_values_desc
  exact ((List.reverse_perm _).trans (List.perm_insertionSort _ _)).trans (List.reverse_perm l)

theorem sort_values_desc_sorted (l : List RankedRow) :
    List.Sorted scoreGE (sort_values_desc l) := by
  unfold sort_values_desc
  have hs : List.Sorted scoreLE (List.insertionSort scoreLE l.reverse) :=
    List.sorted_insertionSort scoreLE l.reverse
  unfold List.Sorted at hs ⊢
  rw [List.pairwise_reverse]
  exact hs

theorem mem_of_mem_dropDupGo {seen : List String} {l : List RankedRow} {x : RankedRow}
    (h : x ∈ dropDupGo seen l) : x ∈ l := by
  induction l generalizing seen with
  | nil => cases h
  | cons r rs ih =>
    unfold dropDupGo at h
    split at h
    · exact List.mem_cons_of_mem r (ih h)
    · rcases List.mem_cons.mp h with he | he
      · exact he ▸ List.mem_cons_self r rs
      · exact List.mem_cons_of_mem r (ih he)

theorem title_notin_seen_of_mem_dropDupGo {seen : List String} {l : List RankedRow}
    {x : RankedRow} (h : x ∈ dropDupGo seen l) : x.title ∉ seen := by
  induction l generalizing seen with
  | nil => cases h
  | cons r rs ih =>
    unfold dropDupGo at h
    split at h
    · exact ih h
    · rename_i hns
      rcases List.mem_cons.mp h with he | he
      · exact he ▸ hns
      · have := ih he
        intro hx
        exact this (List.mem_cons_of_mem _ hx)

theorem nodup_titles_dropDupGo (seen : List String) (l : List RankedRow) :
    ((dropDupGo seen l).map (fun r => r.title)).Nodup := by
  induction l generalizing seen with
  | nil => exact List.nodup_nil
  | cons r rs ih =>
    unfold dropDupGo
    split
    · exact ih seen
    · rename_i hns
      simp only [List.map_cons, List.nodup_cons]
      constructor
      · intro hmem
        rcases List.mem_map.mp hmem with ⟨x, hx, hxt⟩
        have := title_notin_seen_of_mem_dropDupGo hx
        exact this (hxt ▸ List.mem_cons_self _ _)
      · exact ih (r.title :: seen)

theorem titles_dropDupGo_iff {seen : List String} {l : List RankedRow} {t : String}
    (hns : t ∉ seen) :
    (t ∈ (dropDupGo seen l).map (fun r => r.title) ↔ t ∈ l.map (fun r => r.title)) := by
  induction l generalizing seen with
  | nil => simp [dropDupGo]
  | cons r rs ih =>
    unfold dropDupGo
    split
    · rename_i hin
      rw [ih hns]
      simp only [List.map_cons, List.mem_cons]
      constructor
      · exact fun h => Or.inr h
      · rintro (he | h)
        · exact absurd (he ▸ hin) hns
        · exact h
    · simp only [List.map_cons, List.mem_cons]
      by_cases ht : t = r.title
      · exact ⟨fun _ => Or.inl ht, fun _ => Or.inl ht⟩
      · have : t ∉ r.title :: seen := by
          intro hx
          rcases List.mem_cons.mp hx with hx | hx
          · exact ht hx
          · exact hns hx
        rw [ih this]

theorem score_le_of_mem_dropDupGo {seen : List String} {l : List RankedRow} {x : RankedRow}
    (hs : List.Sorted scoreGE l) (h : x ∈ dropDupGo seen l) :
    ∀ z ∈ l, z.title = x.title → z.relevance_score ≤ x.relevance_score := by
  induction l generalizing seen with
  | nil => cases h
  | cons r rs ih =>
    have hrs : List.Sorted scoreGE rs := hs.of_cons
    have hrel := List.rel_of_sorted_cons hs
    unfold dropDupGo at h
    split at h
    · rename_i hin
      intro z hz ht
      rcases List.mem_cons.mp hz with he | he
      · subst he
        have := title_notin_seen_of_mem_dropDupGo h
        exact absurd (ht ▸ hin) this
      · exact ih hrs h z he ht
    · rename_i hnin
      rcases List.mem_cons.mp h with he | he
      · subst he
        intro z hz ht
        rcases List.mem_cons.mp hz with hz1 | hz1
        · subst hz1; exact le_refl _
        · exact hrel z hz1
      · intro z hz ht
        rcases List.mem_cons.mp hz with hz1 | hz1
        · subst hz1
          have := title_notin_seen_of_mem_dropDupGo he
          exact absurd (ht ▸ List.mem_cons_self _ _) (fun hx => this (ht ▸ hx))
        · exact ih hrs he z hz1 ht

theorem le_foldr_max {ns : List Nat} {a : Nat} (h : a ∈ ns) : a ≤ ns.foldr Nat.max 0 := by
  induction ns with
  | nil => cases h
  | cons n ns ih =>
    rcases List.mem_cons.mp h with he | he
    · subst he; exact Nat.le_max_left _ _
    · exact le_trans (ih he) (Nat.le_max_right _ _)

theorem foldr_max_le {ns : List Nat} {b : Nat} (h : ∀ a ∈ ns, a ≤ b) :
    ns.foldr Nat.max 0 ≤ b := by
  induction ns with
  | nil => exact Nat.zero_le b
  | cons n ns ih =>
    have h1 := h n (List.mem_cons_self n ns)
    have h2 := ih (fun a ha => h a (List.mem_cons_of_mem n ha))
    exact Nat.max_le.mpr ⟨h1, h2⟩

theorem le_maxScoreOf {rs : List RankedRow} {z : RankedRow} {t : String}
    (hz : z ∈ rs) (ht : z.title = t) : z.relevance_score ≤ maxScoreOf rs t := by
  unfold maxScoreOf
  apply le_foldr_max
  exact List.mem_map.mpr ⟨z, List.mem_filter.mpr ⟨hz, by simp [ht]⟩, rfl⟩

theorem maxScoreOf_le {rs : List RankedRow} {t : String} {b : Nat}
    (h : ∀ z ∈ rs, z.title = t → z.relevance_score ≤ b) : maxScoreOf rs t ≤ b := by
  unfold maxScoreOf
  apply foldr_max_le
  intro a ha
  rcases List.mem_map.mp ha with ⟨z, hz, haz⟩
  have hzf := List.mem_filter.mp hz
  have ht : z.title = t := by simpa using hzf.2
  exact haz ▸ h z hzf.1 ht


/-- C3: for every sequence of annotated entries, after filtering to relevant
annotations the ranker output holds exactly one row per distinct title (the
output titles are duplicate-free and are exactly the titles of the relevant
rows), and each surviving row carries the greatest relevance score among the
relevant rows sharing its title. -/
theorem c3_ranker_dedup_max (annotated : List (Entry × EntryAnnotation))
    (rows : List RankedRow) (h : rank annotated = .ok rows) :
    ((rows.map (fun r => r.title)).Nodup) ∧
    (∀ t, t ∈ rows.map (fun r => r.title) ↔
        t ∈ (relevantRowsOf annotated).map (fun r => r.title)) ∧
    (∀ row ∈ rows, row.relevance_score = maxScoreOf (relevantRowsOf annotated) row.title) := by
  simp only [rank] at h
  split at h
  · cases h
  · cases h
    refine ⟨nodup_titles_dropDupGo [] _, ?_, ?_⟩
    · intro t
      have h1 := titles_dropDupGo_iff
        (l := sort_values_desc (relevantRowsOf annotated)) (t := t) (List.not_mem_nil t)
      have h2 : t ∈ (sort_values_desc (relevantRowsOf annotated)).map (fun r => r.title) ↔
          t ∈ (relevantRowsOf annotated).map (fun r => r.title) :=
        ((sort_values_desc_perm (relevantRowsOf annotated)).map (fun r => r.title)).mem_iff
      exact (h1.trans h2)
    · intro row hrow
      have hmem_s : row ∈ sort_values_desc (relevantRowsOf annotated) :=
        mem_of_mem_dropDupGo hrow
      have hmem_l : row ∈ relevantRowsOf annotated :=
        (sort_values_desc_perm (relevantRowsOf annotated)).subset hmem_s
      apply Nat.le_antisymm
      · exact le_maxScoreOf hmem_l rfl
      · apply maxScoreOf_le
        intro z hz ht
        have hz_s : z ∈ sort_values_desc (relevantRowsOf annotated) :=
          (sort_values_desc_perm (relevantRowsOf annotated)).symm.subset hz
        exact score_le_of_mem_dropDupGo
          (sort_values_desc_sorted (relevantRowsOf annotated)) hrow z hz_s ht

/-- An entry with only a title, for concrete ranker scenarios. -/
def titledEntry (t : String) : Entry :=
  { title := t, authors := "", published := "", link := "", summary := "",
    category := "", database := "arxiv" }

/-- The dedup scenario of the spec: two annotations titled Paper A with
scores six and nine and one titled Paper B with score nine, all relevant. -/
def annotatedScenario : List (Entry × EntryAnnotation) :=
  [(titledEntry "Paper A", { reason := "r1", is_relevant := true, relevance_score := 6 }),
   (titledEntry "Paper A", { reason := "r2", is_relevant := true, relevance_score := 9 }),
   (titledEntry "Paper B", { reason := "r3", is_relevant := true, relevance_score := 9 })]

/-- The ranker output on that scenario. -/
def rowsScenario : List RankedRow :=
  [{ title := "Paper A", reason := "r2", relevance_score := 9 },
   { title := "Paper B", reason := "r3", relevance_score := 9 }]

/-- C3 witness: the dedup theorem applied to the concrete spec scenario. -/
theorem c3_witness :
    ((rowsScenario.map (fun r => r.title)).Nodup) ∧
    (∀ t, t ∈ rowsScenario.map (fun r => r.title) ↔
        t ∈ (relevantRowsOf annotatedScenario).map (fun r => r.title)) ∧
    (∀ row ∈ rowsScenario, row.relevance_score =
        maxScoreOf (relevantRowsOf annotatedScenario) row.title) :=
  c3_ranker_dedup_max annotatedScenario rowsScenario (by rfl)

/-- C5: the annotator judges exactly the first twenty entries of the
concatenated sequence in order: the number of judged entries is the minimum
of the input length and twenty, the judged entries are the twenty-entry
prefix in order, and on twenty-five entries the output only depends on the
judge values over the first twenty, so the last five are never sent. -/
theorem c5_annotator_cap :
    (∀ (judge : Entry → EntryAnnotation) (es : List Entry),
        (annotate_entries judge es).length = min es.length 20 ∧
        (annotate_entries judge es).map Prod.fst = es.take 20) ∧
    (∀ (j1 j2 : Entry → EntryAnnotation) (es : List Entry), es.length = 25 →
        (∀ en ∈ es.take 20, j1 en = j2 en) →
        annotate_entries j1 es = annotate_entries j2 es) := by
  constructor
  · intro judge es
    constructor
    · simp [annotate_entries, Nat.min_comm]
    · unfold annotate_entries
      rw [List.map_map]
      have hcomp : (Prod.fst ∘ fun e : Entry => (e, judge e)) = fun e : Entry => e := rfl
      rw [hcomp, List.map_id']
  · intro j1 j2 es _ hagree
    unfold annotate_entries
    apply List.map_congr_left
    intro a ha
    rw [hagree a ha]

/-- Twenty-five concrete entries. -/
def entries25 : List Entry := (List.range 25).map (fun n => titledEntry (toString n))

/-- A judge marking everything relevant. -/
def judgeAll : Entry → EntryAnnotation :=
  fun _ => { reason := "ok", is_relevant := true, relevance_score := 5 }

/-- A judge agreeing with judgeAll except on the twenty-first entry. -/
def judgeTail : Entry → EntryAnnotation :=
  fun en => if en.title = "20" then { reason := "no", is_relevant := false, relevance_score := 1 }
    else { reason := "ok", is_relevant := true, relevance_score := 5 }

/-- C5 witness: the sampling theorem applied to twenty-five concrete
entries and two judges that differ only beyond the cap. -/
theorem c5_witness :
    ((annotate_entries judgeAll entries25).length = min entries25.length 20 ∧
      (annotate_entries judgeAll entries25).map Prod.fst = entries25.take 20) ∧
    annotate_entries judgeAll entries25 = annotate_entries judgeTail entries25 :=
  ⟨c5_annotator_cap.1 judgeAll entries25,
   c5_annotator_cap.2 judgeAll judgeTail entries25 (by decide) (by decide)⟩


/-- C8: every entry a range-query adapter returns has a category whose
lowercasing is a member of the lowercased resolved category list passed to
the adapter, whatever the letter case of the passed codes; bioRxiv from the
source, medRxiv from the spec model. -/
theorem c8_rangequery_category :
    (∀ (categories : List String) (s e : Date) (resp : BioResponse) (txt : String)
        (entries : List Entry),
        fetch_biorxiv_papers categories s e resp = .ok (.pairVal txt entries) →
        ∀ en ∈ entries, pyLower en.category ∈ categories.map pyLower) ∧
    (∀ (categories : List String) (s e : Date) (resp : BioResponse) (txt : String)
        (entries : List Entry),
        fetch_medrxiv_papers categories s e resp = .ok (.pairVal txt entries) →
        ∀ en ∈ entries, pyLower en.category ∈ categories.map pyLower) := by
  constructor
  · intro cats s e resp txt entries h en hen
    simp only [fetch_biorxiv_papers] at h
    split at h
    · cases h
    · split at h
      · cases h
      · split at h
        · cases h
        · rename_i es hb
          cases h
          rcases buildBioEntries_mem hb en hen with ⟨r, _, hcat, d, _, hen_eq⟩
          subst hen_eq
          exact hcat
  · intro cats s e resp txt entries h en hen
    simp only [fetch_medrxiv_papers] at h
    split at h
    · cases h
    · split at h
      · cases h
      · split at h
        · cases h
        · rename_i es hb
          cases h
          rcases buildMedEntries_mem hb en hen with ⟨r, _, hcat, d, _, hen_eq⟩
          subst hen_eq
          exact hcat

/-- An upstream record with mixed-case category for the category claims. -/
def recGenomics : BioRecord :=
  { title := "T1", authors := "A", date := "2024-03-05", doi := "10.1101/x",
    abstract := "s", category := "Genomics" }

/-- C8 witness: both range-query adapters, queried with an uppercased code,
return the Genomics record with a category that matches case-insensitively. -/
theorem c8_witness :
    "genomics" ∈ (["GENOMICS"].map pyLower) ∧
    pyLower (mkBioEntry recGenomics ⟨2024, 3, 5⟩).category ∈ (["GENOMICS"].map pyLower) ∧
    pyLower (mkMedEntry recGenomics ⟨2024, 3, 5⟩).category ∈ (["GENOMICS"].map pyLower) :=
  ⟨by decide,
   c8_rangequery_category.1 ["GENOMICS"] ⟨2024, 3, 1⟩ ⟨2024, 3, 15⟩ ⟨200, some [recGenomics]⟩
     (format_entries [mkBioEntry recGenomics ⟨2024, 3, 5⟩] ⟨2024, 3, 1⟩ ⟨2024, 3, 15⟩)
     [mkBioEntry recGenomics ⟨2024, 3, 5⟩] (by rfl)
     (mkBioEntry recGenomics ⟨2024, 3, 5⟩) (List.mem_singleton.mpr rfl),
   c8_rangequery_category.2 ["GENOMICS"] ⟨2024, 3, 1⟩ ⟨2024, 3, 15⟩ ⟨200, some [recGenomics]⟩
     (format_entries [mkMedEntry recGenomics ⟨2024, 3, 5⟩] ⟨2024, 3, 1⟩ ⟨2024, 3, 15⟩)
     [mkMedEntry recGenomics ⟨2024, 3, 5⟩] (by rfl)
     (mkMedEntry recGenomics ⟨2024, 3, 5⟩) (List.mem_singleton.mpr rfl)⟩

/-- C10: the category of an arXiv entry is the primary category term of the
feed record when present and otherwise the head of the requested category
list, indexing that raises IndexError on an empty list; so with an empty
category list and every date parsing, one in-window record without a
primary category makes the whole call raise IndexError instead of
returning. -/
theorem c10_arxiv_category_fallback :
    (∀ (cats : List String) (r : FeedEntry) (t : String),
        r.primary_category = some t → arxivCategoryOf cats r = .ok t) ∧
    (∀ (c : String) (cs : List String) (r : FeedEntry),
        r.primary_category = none → arxivCategoryOf (c :: cs) r = .ok c) ∧
    (∀ r : FeedEntry, r.primary_category = none →
        arxivCategoryOf [] r = .error (.indexError "list index out of range")) ∧
    (∀ (cats : List String) (mr : Nat) (s e : Date) (feed : Feed) (txt : String)
        (entries : List Entry),
        fetch_arxiv_papers cats mr s e feed = .ok (txt, entries) →
        ∀ en ∈ entries, ∃ r ∈ feed.entries, arxivCategoryOf cats r = .ok en.category) ∧
    (∀ (mr : Nat) (s e : Date) (feed : Feed),
        (∀ r ∈ feed.entries, parseArxivTS r.published ≠ none) →
        (∃ r ∈ feed.entries, (∃ d, parseArxivTS r.published = some d ∧
            (dateLe s d && dateLe d e) = true) ∧ r.primary_category = none) →
        fetch_arxiv_papers [] mr s e feed = .error (.indexError "list index out of range")) := by
  refine ⟨?_, ?_, ?_, ?_, ?_⟩
  · intro cats r t hp
    unfold arxivCategoryOf
    rw [hp]
  · intro c cs r hp
    unfold arxivCategoryOf
    rw [hp]
  · intro r hp
    unfold arxivCategoryOf
    rw [hp]
  · intro cats mr s e feed txt entries h en hen
    unfold fetch_arxiv_papers at h
    split at h
    · cases h
    · rename_i es hb
      cases h
      rcases buildArxivEntries_mem hb en hen with ⟨r, hr, d, cat, _, _, hc, hen_eq⟩
      refine ⟨r, hr, ?_⟩
      rw [hc, hen_eq]
      rfl
  · intro mr s e feed hall hex
    cases hres : buildArxivEntries [] s e feed.entries with
    | ok entries =>
      rcases hex with ⟨r, hr, ⟨d, hp, hw⟩, hnone⟩
      rcases buildArxivEntries_ok_category hres r hr d hp hw with ⟨cat, hc⟩
      unfold arxivCategoryOf at hc
      rw [hnone] at hc
      cases hc
    | error er =>
      have := buildArxivEntries_error_shape hall hres
      subst this
      unfold fetch_arxiv_papers
      rw [hres]

/-- A feed record with a primary category, published in the window of March
2024 scenarios. -/
def feedWithPrimary : FeedEntry :=
  { title := "Good", published := "2024-03-05T01:02:03Z", link := "http://arxiv.org/abs/2",
    summary := "s", authors := ["Y"], primary_category := some "cs.AI" }

/-- The same record without a primary category. -/
def feedNoPrimary : FeedEntry :=
  { title := "Good", published := "2024-03-05T01:02:03Z", link := "http://arxiv.org/abs/2",
    summary := "s", authors := ["Y"], primary_category := none }

/-- C10 witness: the category selection theorem applied to concrete
records, including the IndexError raised when an empty category list meets
an in-window record without a primary category. -/
theorem c10_witness :
    arxivCategoryOf [] feedWithPrimary = .ok "cs.AI" ∧
    arxivCategoryOf ["cs.LG"] feedNoPrimary = .ok "cs.LG" ∧
    arxivCategoryOf [] feedNoPrimary = .error (.indexError "list index out of range") ∧
    fetch_arxiv_papers [] 200 ⟨2024, 3, 1⟩ ⟨2024, 3, 15⟩ ⟨[feedNoPrimary]⟩ =
      .error (.indexError "list index out of range") :=
  ⟨c10_arxiv_category_fallback.1 [] feedWithPrimary "cs.AI" rfl,
   c10_arxiv_category_fallback.2.1 "cs.LG" [] feedNoPrimary rfl,
   c10_arxiv_category_fallback.2.2.1 feedNoPrimary rfl,
   c10_arxiv_category_fallback.2.2.2.2 200 ⟨2024, 3, 1⟩ ⟨2024, 3, 15⟩ ⟨[feedNoPrimary]⟩
     (by decide)
     ⟨feedNoPrimary, List.mem_singleton.mpr rfl, ⟨⟨2024, 3, 5⟩, by decide, by decide⟩, rfl⟩⟩


theorem renderGo_eq (rows : List RankedRow) : ∀ (acc : String) (idx : Nat),
    renderGo acc idx rows =
      acc ++ ((rows.enumFrom idx).map (fun p => paperBlock p.1 p.2)).foldr
        (fun a b => a ++ b) "" := by
  induction rows with
  | nil =>
    intro acc idx
    simp [renderGo, List.enumFrom]
  | cons r rs ih =>
    intro acc idx
    unfold renderGo
    rw [ih]
    simp only [List.enumFrom, List.map_cons, List.foldr_cons]
    rw [String.append_assoc]

/-- C9 amended: the report renderer emits, in row order, exactly one block
per ranked row carrying its one-based sequence number, title, score and
reason; but over an empty relevant set the pipeline raises (pd.concat over
no objects) instead of returning an empty-body report. -/
theorem c9_formatter_amended :
    (∀ rows : List RankedRow,
        renderReport rows =
          ((rows.enumFrom 1).map (fun p => paperBlock p.1 p.2)).foldr (fun a b => a ++ b) "") ∧
    (∀ annotated : List (Entry × EntryAnnotation), relevantRowsOf annotated = [] →
        rank annotated = .error (.valueError "No objects to concatenate")) := by
  constructor
  · intro rows
    unfold renderReport
    rw [renderGo_eq]
    simp
  · intro annotated h
    simp [rank, h]

/-- The taxonomy rows for the concrete orchestrator runs: one code per
source. -/
def taxThree : List TaxRow :=
  [{ category_code := "cs.AI", database := "arxiv" },
   { category_code := "genomics", database := "biorxiv" },
   { category_code := "epidemiology", database := "medrxiv" }]

/-- A successful range-query response with an empty collection. -/
def respOkEmpty : BioResponse := { status_code := 200, collection := some [] }

/-- C9 counterexample: with all three sources succeeding and zero entries
fetched, the claim promises a well-formed empty-body report, but the
pipeline raises ValueError at pd.concat over no objects. -/
theorem c9_counterexample :
    fetch_all_papers taxThree ["cs.AI", "genomics", "epidemiology"] 200
      ⟨2024, 3, 1⟩ ⟨2024, 3, 15⟩ ⟨[]⟩ respOkEmpty respOkEmpty judgeAll =
    .error (.valueError "No objects to concatenate") := by rfl

/-- C9 witness: the amended formatter theorem applied to the concrete
scenario rows and to an annotated list with no relevant row. -/
theorem c9_witness :
    renderReport rowsScenario =
      ((rowsScenario.enumFrom 1).map (fun p => paperBlock p.1 p.2)).foldr
        (fun a b => a ++ b) "" ∧
    rank [(titledEntry "Paper C",
        { reason := "no", is_relevant := false, relevance_score := 2 })] =
      .error (.valueError "No objects to concatenate") :=
  ⟨c9_formatter_amended.1 rowsScenario,
   c9_formatter_amended.2 [(titledEntry "Paper C",
     { reason := "no", is_relevant := false, relevance_score := 2 })] (by rfl)⟩


/-- C1 amended: the feed-based arXiv adapter enforces the date window
locally, so every entry it returns carries an in-window published date for
all upstream responses; the range-query bioRxiv and medRxiv adapters apply
no local date filter, so their entries carry in-window dates only under the
hypothesis that every parsed record date of the upstream collection already
lies in the requested window. -/
theorem c1_window_amended :
    (∀ (cats : List String) (mr : Nat) (s e : Date) (feed : Feed) (txt : String)
        (entries : List Entry),
        fetch_arxiv_papers cats mr s e feed = .ok (txt, entries) →
        ∀ en ∈ entries, publishedInWindow s e en = true) ∧
    (∀ (cats : List String) (s e : Date) (resp : BioResponse) (txt : String)
        (entries : List Entry),
        fetch_biorxiv_papers cats s e resp = .ok (.pairVal txt entries) →
        (∀ records, resp.collection = some records → ∀ r ∈ records, ∀ d,
            parseYMD r.date = some d → (dateLe s d && dateLe d e) = true) →
        ∀ en ∈ entries, publishedInWindow s e en = true) ∧
    (∀ (cats : List String) (s e : Date) (resp : BioResponse) (txt : String)
        (entries : List Entry),
        fetch_medrxiv_papers cats s e resp = .ok (.pairVal txt entries) →
        (∀ records, resp.collection = some records → ∀ r ∈ records, ∀ d,
            parseYMD r.date = some d → (dateLe s d && dateLe d e) = true) →
        ∀ en ∈ entries, publishedInWindow s e en = true) := by
  refine ⟨?_, ?_, ?_⟩
  · intro cats mr s e feed txt entries h en hen
    unfold fetch_arxiv_papers at h
    split at h
    · cases h
    · rename_i es hb
      cases h
      rcases buildArxivEntries_mem hb en hen with ⟨r, _, d, cat, hp, hwin, _, hen_eq⟩
      subst hen_eq
      have hbd := parseArxivTS_bounds hp
      simp only [publishedInWindow, mkArxivEntry]
      rw [parseDMY_fmtDMY hbd.1 hbd.2.1 hbd.2.2.2.1 hbd.2.2.2.2.2]
      exact hwin
  · intro cats s e resp txt entries h hcoll en hen
    simp only [fetch_biorxiv_papers] at h
    split at h
    · cases h
    · split at h
      · cases h
      · rename_i records hcol
        split at h
        · cases h
        · rename_i es hb
          cases h
          rcases buildBioEntries_mem hb en hen with ⟨r, hr, _, d, hp, hen_eq⟩
          subst hen_eq
          have hbd := parseYMD_bounds hp
          simp only [publishedInWindow, mkBioEntry]
          rw [parseDMY_fmtDMY hbd.1 hbd.2.1 hbd.2.2.2.1 hbd.2.2.2.2.2]
          exact hcoll records hcol r hr d hp
  · intro cats s e resp txt entries h hcoll en hen
    simp only [fetch_medrxiv_papers] at h
    split at h
    · cases h
    · split at h
      · cases h
      · rename_i records hcol
        split at h
        · cases h
        · rename_i es hb
          cases h
          rcases buildMedEntries_mem hb en hen with ⟨r, hr, _, d, hp, hen_eq⟩
          subst hen_eq
          have hbd := parseYMD_bounds hp
          simp only [publishedInWindow, mkMedEntry]
          rw [parseDMY_fmtDMY hbd.1 hbd.2.1 hbd.2.2.2.1 hbd.2.2.2.2.2]
          exact hcoll records hcol r hr d hp

/-- A bioRxiv record carrying a date far outside the queried window. -/
def recOldGenomics : BioRecord :=
  { title := "T1", authors := "A", date := "2020-01-01", doi := "10.1101/x",
    abstract := "s", category := "Genomics" }

/-- C1 counterexample: queried for March 2024, the bioRxiv adapter returns
the single record of the upstream collection even though its date is in
January 2020 — the returned entry violates the claimed window invariant. -/
theorem c1_counterexample :
    (entriesOfRet (fetch_biorxiv_papers ["Genomics"] ⟨2024, 3, 1⟩ ⟨2024, 3, 15⟩
        { status_code := 200, collection := some [recOldGenomics] })).map
      (publishedInWindow ⟨2024, 3, 1⟩ ⟨2024, 3, 15⟩) = [false] := by rfl

/-- C1 witness: the amended window theorem applied to a concrete in-window
arXiv feed record and a concrete in-window bioRxiv record. -/
theorem c1_witness :
    publishedInWindow ⟨2024, 3, 1⟩ ⟨2024, 3, 15⟩
      (mkArxivEntry feedWithPrimary ⟨2024, 3, 5⟩ "cs.AI") = true ∧
    publishedInWindow ⟨2024, 3, 1⟩ ⟨2024, 3, 15⟩ (mkBioEntry recGenomics ⟨2024, 3, 5⟩) = true :=
  ⟨(c1_window_amended.1 ["cs.AI"] 200 ⟨2024, 3, 1⟩ ⟨2024, 3, 15⟩ ⟨[feedWithPrimary]⟩
      (format_entries [mkArxivEntry feedWithPrimary ⟨2024, 3, 5⟩ "cs.AI"] ⟨2024, 3, 1⟩
        ⟨2024, 3, 15⟩)
      [mkArxivEntry feedWithPrimary ⟨2024, 3, 5⟩ "cs.AI"] (by rfl))
      (mkArxivEntry feedWithPrimary ⟨2024, 3, 5⟩ "cs.AI") (List.mem_singleton.mpr rfl),
   (c1_window_amended.2.1 ["Genomics"] ⟨2024, 3, 1⟩ ⟨2024, 3, 15⟩
      { status_code := 200, collection := some [recGenomics] }
      (format_entries [mkBioEntry recGenomics ⟨2024, 3, 5⟩] ⟨2024, 3, 1⟩ ⟨2024, 3, 15⟩)
      [mkBioEntry recGenomics ⟨2024, 3, 5⟩] (by rfl)
      (by intro records hcol r hr d hp
          cases hcol
          rcases List.mem_singleton.mp hr with rfl
          cases hp
          decide))
      (mkBioEntry recGenomics ⟨2024, 3, 5⟩) (List.mem_singleton.mpr rfl)⟩

theorem unpackPair_ok {ret : BioRet} {t : String} {es : List Entry}
    (h : unpackPair ret = .ok (t, es)) : ret = .pairVal t es := by
  cases ret with
  | emptyListVal => cases h
  | pairVal a b => cases h; rfl

theorem allEntriesOf_ok_shape {resources : List TaxRow} {cats : List String} {mr : Nat}
    {s e : Date} {feedA : Feed} {respB respM : BioResponse} {all : List Entry}
    (h : allEntriesOf resources cats mr s e feedA respB respM = .ok all) :
    ∃ txtA arxivEs bioText bioEs medText medEs,
      fetch_arxiv_papers (resolvedFor resources cats "arxiv") mr s e feedA =
        .ok (txtA, arxivEs) ∧
      fetch_biorxiv_papers (resolvedFor resources cats "biorxiv") s e respB =
        .ok (.pairVal bioText bioEs) ∧
      fetch_medrxiv_papers (resolvedFor resources cats "medrxiv") s e respM =
        .ok (.pairVal medText medEs) ∧
      all = arxivEs ++ bioEs ++ medEs := by
  unfold allEntriesOf at h
  split at h
  · cases h
  · split at h
    · cases h
    · rename_i txtA arxivEs ha
      split at h
      · cases h
      · split at h
        · cases h
        · rename_i bioRet hb
          split at h
          · cases h
          · rename_i bioText bioEs hub
            split at h
            · cases h
            · split at h
              · cases h
              · rename_i medRet hm
                split at h
                · cases h
                · rename_i medText medEs hum
                  cases h
                  have hbio := unpackPair_ok hub
                  have hmed := unpackPair_ok hum
                  subst hbio
                  subst hmed
                  exact ⟨txtA, arxivEs, bioText, bioEs, medText, medEs, ha, hb, hm, rfl⟩

theorem fetch_arxiv_database {cats : List String} {mr : Nat} {s e : Date} {feed : Feed}
    {txt : String} {entries : List Entry}
    (h : fetch_arxiv_papers cats mr s e feed = .ok (txt, entries)) :
    ∀ en ∈ entries, en.database = "arxiv" := by
  unfold fetch_arxiv_papers at h
  split at h
  · cases h
  · rename_i es hb
    cases h
    intro en hen
    rcases buildArxivEntries_mem hb en hen with ⟨r, _, d, cat, _, _, _, hen_eq⟩
    subst hen_eq
    rfl

theorem fetch_bio_database {cats : List String} {s e : Date} {resp : BioResponse}
    {txt : String} {entries : List Entry}
    (h : fetch_biorxiv_papers cats s e resp = .ok (.pairVal txt entries)) :
    ∀ en ∈ entries, en.database = "biorxiv" := by
  simp only [fetch_biorxiv_papers] at h
  split at h
  · cases h
  · split at h
    · cases h
    · split at h
      · cases h
      · rename_i es hb
        cases h
        intro en hen
        rcases buildBioEntries_mem hb en hen with ⟨r, _, _, d, _, hen_eq⟩
        subst hen_eq
        rfl

theorem fetch_med_database {cats : List String} {s e : Date} {resp : BioResponse}
    {txt : String} {entries : List Entry}
    (h : fetch_medrxiv_papers cats s e resp = .ok (.pairVal txt entries)) :
    ∀ en ∈ entries, en.database = "medrxiv" := by
  simp only [fetch_medrxiv_papers] at h
  split at h
  · cases h
  · split at h
    · cases h
    · split at h
      · cases h
      · rename_i es hb
        cases h
        intro en hen
        rcases buildMedEntries_mem hb en hen with ⟨r, _, _, d, _, hen_eq⟩
        subst hen_eq
        rfl

theorem fetch_bio_emptycats (s e : Date) (resp : BioResponse) :
    fetch_biorxiv_papers [] s e resp = .ok .emptyListVal ∨
    fetch_biorxiv_papers [] s e resp = .ok (.pairVal (format_entries [] s e) []) := by
  simp only [fetch_biorxiv_papers]
  split
  · exact Or.inl rfl
  · cases hc : resp.collection with
    | none => exact Or.inl rfl
    | some records =>
      right
      simp only [List.map_nil]
      rw [buildBioEntries_nilcats records]

theorem fetch_med_emptycats (s e : Date) (resp : BioResponse) :
    fetch_medrxiv_papers [] s e resp = .ok .emptyListVal ∨
    fetch_medrxiv_papers [] s e resp = .ok (.pairVal (format_entries [] s e) []) := by
  simp only [fetch_medrxiv_papers]
  split
  · exact Or.inl rfl
  · cases hc : resp.collection with
    | none => exact Or.inl rfl
    | some records =>
      right
      simp only [List.map_nil]
      rw [buildMedEntries_nilcats records]


/-- C6 amended: for the range-query sources an empty resolved category list
yields no entries for every upstream response (the membership filter rejects
every record), and hence no entry of that provenance ever reaches the
orchestrator concatenation; but the feed-based arXiv adapter is still
invoked with its empty list, issues the query, and returns whatever
in-window records the upstream supplies, so the zero-entry guarantee fails
for arXiv. -/
theorem c6_empty_categories_amended :
    (∀ (s e : Date) (resp : BioResponse),
        fetch_biorxiv_papers [] s e resp = .ok .emptyListVal ∨
        fetch_biorxiv_papers [] s e resp = .ok (.pairVal (format_entries [] s e) [])) ∧
    (∀ (s e : Date) (resp : BioResponse),
        fetch_medrxiv_papers [] s e resp = .ok .emptyListVal ∨
        fetch_medrxiv_papers [] s e resp = .ok (.pairVal (format_entries [] s e) [])) ∧
    (∀ (resources : List TaxRow) (cats : List String) (mr : Nat) (s e : Date)
        (feedA : Feed) (respB respM : BioResponse) (all : List Entry),
        allEntriesOf resources cats mr s e feedA respB respM = .ok all →
        resolvedFor resources cats "biorxiv" = [] →
        ∀ en ∈ all, en.database ≠ "biorxiv") ∧
    (∀ (resources : List TaxRow) (cats : List String) (mr : Nat) (s e : Date)
        (feedA : Feed) (respB respM : BioResponse) (all : List Entry),
        allEntriesOf resources cats mr s e feedA respB respM = .ok all →
        resolvedFor resources cats "medrxiv" = [] →
        ∀ en ∈ all, en.database ≠ "medrxiv") := by
  refine ⟨fetch_bio_emptycats, fetch_med_emptycats, ?_, ?_⟩
  · intro resources cats mr s e feedA respB respM all h hres en hen
    rcases allEntriesOf_ok_shape h with ⟨tA, aEs, tB, bEs, tM, mEs, ha, hb, hm, hall⟩
    subst hall
    rw [hres] at hb
    have hbEs : bEs = [] := by
      rcases fetch_bio_emptycats s e respB with hcase | hcase <;> rw [hcase] at hb
      · cases hb
      · cases hb
        rfl
    subst hbEs
    rcases List.mem_append.mp hen with hx | hx
    · rcases List.mem_append.mp hx with hx1 | hx1
      · rw [fetch_arxiv_database ha en hx1]
        decide
      · cases hx1
    · rw [fetch_med_database hm en hx]
      decide
  · intro resources cats mr s e feedA respB respM all h hres en hen
    rcases allEntriesOf_ok_shape h with ⟨tA, aEs, tB, bEs, tM, mEs, ha, hb, hm, hall⟩
    subst hall
    rw [hres] at hm
    have hmEs : mEs = [] := by
      rcases fetch_med_emptycats s e respM with hcase | hcase <;> rw [hcase] at hm
      · cases hm
      · cases hm
        rfl
    subst hmEs
    rcases List.mem_append.mp hen with hx | hx
    · rcases List.mem_append.mp hx with hx1 | hx1
      · rw [fetch_arxiv_database ha en hx1]
        decide
      · rw [fetch_bio_database hb en hx1]
        decide
    · cases hx

/-- A taxonomy whose arXiv codes do not meet the selected categories. -/
def taxC6 : List TaxRow :=
  [{ category_code := "cs.LG", database := "arxiv" },
   { category_code := "genomics", database := "biorxiv" },
   { category_code := "epidemiology", database := "medrxiv" }]

/-- C6 counterexample: the resolved arXiv category set is empty, yet the
orchestrator still calls the arXiv adapter, the upstream feed returns one
in-window record, and that arXiv-tagged entry flows through annotation into
the final ranked output. -/
theorem c6_counterexample :
    resolvedFor taxC6 ["cs.AI"] "arxiv" = [] ∧
    (allEntriesOf taxC6 ["cs.AI"] 200 ⟨2024, 3, 1⟩ ⟨2024, 3, 15⟩ ⟨[feedWithPrimary]⟩
        respOkEmpty respOkEmpty).toOption.map (fun es => es.map (fun en => en.database)) =
      some ["arxiv"] ∧
    (fetch_all_papers taxC6 ["cs.AI"] 200 ⟨2024, 3, 1⟩ ⟨2024, 3, 15⟩ ⟨[feedWithPrimary]⟩
        respOkEmpty respOkEmpty judgeAll).toOption.map (fun p => p.2.map (fun r => r.title)) =
      some ["Good"] := by
  refine ⟨rfl, rfl, rfl⟩

/-- C6 witness: the amended theorem applied to an empty bioRxiv category
list over a nonempty upstream collection, and to a concrete orchestrator
run whose resolved bioRxiv set is empty. -/
theorem c6_witness :
    (fetch_biorxiv_papers [] ⟨2024, 3, 1⟩ ⟨2024, 3, 15⟩
        { status_code := 200, collection := some [recGenomics] } = .ok .emptyListVal ∨
      fetch_biorxiv_papers [] ⟨2024, 3, 1⟩ ⟨2024, 3, 15⟩
        { status_code := 200, collection := some [recGenomics] } =
          .ok (.pairVal (format_entries [] ⟨2024, 3, 1⟩ ⟨2024, 3, 15⟩) [])) ∧
    ((mkArxivEntry feedWithPrimary ⟨2024, 3, 5⟩ "cs.AI").database ≠ "biorxiv") :=
  ⟨c6_empty_categories_amended.1 ⟨2024, 3, 1⟩ ⟨2024, 3, 15⟩
      { status_code := 200, collection := some [recGenomics] },
   c6_empty_categories_amended.2.2.1 taxC6 ["cs.AI"] 200 ⟨2024, 3, 1⟩ ⟨2024, 3, 15⟩
      ⟨[feedWithPrimary]⟩ respOkEmpty respOkEmpty
      [mkArxivEntry feedWithPrimary ⟨2024, 3, 5⟩ "cs.AI"] (by rfl) (by rfl)
      (mkArxivEntry feedWithPrimary ⟨2024, 3, 5⟩ "cs.AI") (List.mem_singleton.mpr rfl)⟩


/-- C2: upstream bioRxiv answers HTTP 500; the adapter does return an empty
result (the bare empty list of its error path), but the orchestrator then
unpacks that list into two names, which raises ValueError, so the exception
escapes fetch_all_papers instead of partial coverage: the error-path return
shape contradicts the success-path tuple the same function returns. -/
theorem c2_http500_unpack_valueerror :
    fetch_biorxiv_papers ["genomics"] ⟨2024, 3, 1⟩ ⟨2024, 3, 15⟩
      { status_code := 500, collection := none } = .ok .emptyListVal ∧
    fetch_all_papers taxThree ["cs.AI", "genomics", "epidemiology"] 200
      ⟨2024, 3, 1⟩ ⟨2024, 3, 15⟩ ⟨[feedWithPrimary]⟩
      { status_code := 500, collection := none } respOkEmpty judgeAll =
      .error (.valueError "not enough values to unpack (expected 2, got 0)") :=
  ⟨rfl, rfl⟩

theorem fetch_bio_ok_build {cats : List String} {s e : Date} {resp : BioResponse}
    {ret : BioRet} {records : List BioRecord}
    (h : fetch_biorxiv_papers cats s e resp = .ok ret) (h200 : resp.status_code = 200)
    (hcol : resp.collection = some records) :
    ∃ entries, buildBioEntries (cats.map pyLower) records = .ok entries := by
  simp only [fetch_biorxiv_papers] at h
  split at h
  · rename_i hcond
    exact absurd h200 hcond
  · split at h
    · rename_i heq
      rw [hcol] at heq
      cases heq
    · rename_i records0 heq
      rw [hcol] at heq
      cases heq
      split at h
      · cases h
      · rename_i es hb
        exact ⟨es, hb⟩

theorem fetch_bio_error_build {cats : List String} {s e : Date} {resp : BioResponse}
    {er : PyErr} (h : fetch_biorxiv_papers cats s e resp = .error er) :
    ∃ records, resp.collection = some records ∧
      buildBioEntries (cats.map pyLower) records = .error er := by
  simp only [fetch_biorxiv_papers] at h
  split at h
  · cases h
  · split at h
    · cases h
    · rename_i records heq
      split at h
      · rename_i er0 hb
        cases h
        exact ⟨records, heq, hb⟩
      · cases h

/-- C7 amended: a record whose date string fails to parse makes the whole
adapter call raise, discarding the well-formed records of the same
response — for the feed-based adapter any record, for the range-query
adapters any record passing the category filter; records the category
filter rejects are never date-parsed, so their malformed dates are indeed
harmless. -/
theorem c7_malformed_date_amended :
    (∀ (cats : List String) (mr : Nat) (s e : Date) (feed : Feed),
        (∃ r ∈ feed.entries, parseArxivTS r.published = none) →
        exceptIsError (fetch_arxiv_papers cats mr s e feed) = true) ∧
    (∀ (cats : List String) (s e : Date) (resp : BioResponse) (records : List BioRecord),
        resp.status_code = 200 → resp.collection = some records →
        (∃ r ∈ records, pyLower r.category ∈ cats.map pyLower ∧ parseYMD r.date = none) →
        exceptIsError (fetch_biorxiv_papers cats s e resp) = true) ∧
    (∀ (cats : List String) (s e : Date) (resp : BioResponse) (records : List BioRecord),
        resp.status_code = 200 → resp.collection = some records →
        (∀ r ∈ records, pyLower r.category ∈ cats.map pyLower → parseYMD r.date ≠ none) →
        exceptIsError (fetch_biorxiv_papers cats s e resp) = false) := by
  refine ⟨?_, ?_, ?_⟩
  · intro cats mr s e feed hex
    cases hres : fetch_arxiv_papers cats mr s e feed with
    | error er => rfl
    | ok p =>
      unfold fetch_arxiv_papers at hres
      split at hres
      · cases hres
      · rename_i es hb
        rcases buildArxivEntries_abort hex with ⟨er, herr⟩
        rw [herr] at hb
        cases hb
  · intro cats s e resp records h200 hcol hex
    cases hres : fetch_biorxiv_papers cats s e resp with
    | error er => rfl
    | ok ret =>
      rcases fetch_bio_ok_build hres h200 hcol with ⟨es, hb⟩
      rcases buildBioEntries_abort hex with ⟨er, herr⟩
      rw [herr] at hb
      cases hb
  · intro cats s e resp records h200 hcol hall
    cases hres : fetch_biorxiv_papers cats s e resp with
    | ok ret => rfl
    | error er =>
      rcases fetch_bio_error_build hres with ⟨records0, hcol0, hb⟩
      rw [hcol] at hcol0
      cases hcol0
      rcases buildBioEntries_error_has hb with ⟨r, hr, hcat, hnone⟩
      exact absurd hnone (hall r hr hcat)

/-- A feed record whose published field is not a timestamp. -/
def feedBadDate : FeedEntry :=
  { title := "Bad", published := "not-a-date", link := "", summary := "",
    authors := [], primary_category := some "cs.AI" }

/-- A bioRxiv record whose date field is not a date. -/
def recBadDate : BioRecord :=
  { title := "T2", authors := "B", date := "banana", doi := "", abstract := "",
    category := "Genomics" }

/-- C7 counterexample: a response holding one malformed-date record and one
well-formed in-window record makes the arXiv adapter raise, returning none
of the well-formed entries instead of skipping the bad record. -/
theorem c7_counterexample :
    fetch_arxiv_papers ["cs.AI"] 200 ⟨2024, 3, 1⟩ ⟨2024, 3, 15⟩
      ⟨[feedBadDate, feedWithPrimary]⟩ =
      .error (.valueError "time data does not match format") := by rfl

/-- C7 witness: the amended abort theorem applied to concrete malformed
records, including a category-rejected malformed record that is skipped. -/
theorem c7_witness :
    exceptIsError (fetch_arxiv_papers ["cs.AI"] 200 ⟨2024, 3, 1⟩ ⟨2024, 3, 15⟩
      ⟨[feedBadDate]⟩) = true ∧
    exceptIsError (fetch_biorxiv_papers ["Genomics"] ⟨2024, 3, 1⟩ ⟨2024, 3, 15⟩
      { status_code := 200, collection := some [recBadDate] }) = true ∧
    exceptIsError (fetch_biorxiv_papers ["Neuroscience"] ⟨2024, 3, 1⟩ ⟨2024, 3, 15⟩
      { status_code := 200, collection := some [recBadDate] }) = false :=
  ⟨c7_malformed_date_amended.1 ["cs.AI"] 200 ⟨2024, 3, 1⟩ ⟨2024, 3, 15⟩ ⟨[feedBadDate]⟩
      ⟨feedBadDate, List.mem_singleton.mpr rfl, rfl⟩,
   c7_malformed_date_amended.2.1 ["Genomics"] ⟨2024, 3, 1⟩ ⟨2024, 3, 15⟩
      { status_code := 200, collection := some [recBadDate] } [recBadDate] rfl rfl
      ⟨recBadDate, List.mem_singleton.mpr rfl, by decide, rfl⟩,
   c7_malformed_date_amended.2.2 ["Neuroscience"] ⟨2024, 3, 1⟩ ⟨2024, 3, 15⟩
      { status_code := 200, collection := some [recBadDate] } [recBadDate] rfl rfl
      (by intro r hr hcat
          rcases List.mem_singleton.mp hr with rfl
          exact absurd hcat (by decide))⟩

end Arxiveroo
